import Mathlib

/-!
# Remote socket resolution of podman-tui (`config/utils.go`)

A shallow embedding of `resolveHomeDir`, `validateAndConfigure`,
`execRemoteCommand` and `getUDS`.

Conventions of the embedding.

* Go strings and byte buffers are Lean `String`s; an `error` value is the text
  of its `Error()` method.
* Everything the code obtains from outside the process (environment
  variables, the home directory, the key loader, the SSH agent, the SSH
  endpoint, the JSON decoder, the iteration order of a Go map) is a field of
  `World`, an explicit and immutable script of the outside.
* Every function returns its Go result together with the list of external
  operations it performed, in order (`Trace`).  A `defer`red call is the
  event appended after the events of the rest of the function body.
* A call ends by returning or by a panic (`Outcome`); `defer`red calls run in
  both cases.
* `log.Debug()` calls only write diagnostics and are left out.
-/

namespace PodmanTui

/-! ## Data model -/

/-- An `ssh.Signer`: a handle distinguishing the instance, the key type and the
value of `ssh.FingerprintSHA256(s.PublicKey())`. -/
structure Signer where
  handle : Nat
  keyType : String
  fingerprint : String
deriving DecidableEq, Repr

/-- The `*url.Userinfo` of a URL. -/
structure Userinfo where
  username : String
  password : String
  passwordSet : Bool
deriving DecidableEq, Repr

/-- The fields of `*url.URL` that the code reads; `user = none` is a nil
`User`. -/
structure URL where
  host : String
  user : Option Userinfo
deriving DecidableEq, Repr

/-- The method `(*url.Userinfo).Password`, which accepts a nil receiver. -/
def URL.password (uri : URL) : String × Bool :=
  match uri.user with
  | none => ("", false)
  | some u => (u.password, u.passwordSet)

/-- The method `(*url.Userinfo).Username`, which accepts a nil receiver. -/
def URL.username (uri : URL) : String :=
  match uri.user with
  | none => ""
  | some u => u.username

/-- An `ssh.AuthMethod` as built by the code: `ssh.PublicKeysCallback` of a
closure returning a fixed list, or `ssh.Password`. -/
inductive AuthMethod where
  | publicKeysCallback (signers : List Signer)
  | password (secret : String)
deriving DecidableEq, Repr

/-- The host key policies; the code only uses `ssh.InsecureIgnoreHostKey()`. -/
inductive HostKeyPolicy where
  | insecureIgnoreHostKey
deriving DecidableEq, Repr

/-- The fields of `ssh.ClientConfig` set by the code; `timeout` in
nanoseconds. -/
structure ClientConfig where
  user : String
  auth : List AuthMethod
  hostKeyCallback : HostKeyPolicy
  timeout : Nat
deriving DecidableEq, Repr

/-- The field `define.RemoteSocket` of the info payload. -/
structure RemoteSocket where
  path : String
  socketExists : Bool
deriving DecidableEq, Repr

/-- The type `define.HostInfo`; `remoteSocket = none` is a nil pointer. -/
structure HostInfo where
  remoteSocket : Option RemoteSocket
deriving DecidableEq, Repr

/-- The part of `define.Info` that the code reads.  The field `Host` is a
`*HostInfo`: `host = none` is the nil pointer left by a payload without a
`host` member. -/
structure Info where
  host : Option HostInfo
deriving DecidableEq, Repr

/-- How a call ends: the function returns its pair of path and error, or the
goroutine panics with a run-time error. -/
inductive Outcome where
  | returned (result : String × Option String)
  | panicked (msg : String)
deriving DecidableEq, Repr

/-- The run-time error of reading a field through a nil pointer. -/
def nilDereference : String :=
  "runtime error: invalid memory address or nil pointer dereference"

/-- The outcome of `sess.Run`: the error if it failed and what the remote
command wrote to the two buffers bound to the session. -/
structure RunResult where
  err : Option String
  stdout : String
  stderr : String
deriving DecidableEq, Repr

/-- The outside of the process, as a script. -/
structure World where
  /-- The function `os.LookupEnv`: `none` when the variable is not set. -/
  lookupEnv : String → Option String
  /-- The function `unshare.HomeDir`. -/
  homeDir : Except String String
  /-- The function `terminal.PublicKey` on an identity path and a passphrase. -/
  publicKey : String → String → Except String Signer
  /-- The error of `net.Dial("unix", sock)`, `none` on success. -/
  agentDial : String → Option String
  /-- The result of `agent.NewClient(c).Signers()` on the socket. -/
  agentList : String → Except String (List Signer)
  /-- The error of `ssh.Dial("tcp", host, cfg)`, `none` on success. -/
  sshDial : String → ClientConfig → Option String
  /-- The error of the `n`-th call of `NewSession` on the connection (from 0),
  `none` on success. -/
  newSession : Nat → Option String
  /-- The outcome of `sess.Run` on a command line. -/
  run : String → RunResult
  /-- The function `json.Unmarshal` into a `define.Info`. -/
  unmarshal : String → Except String Info
  /-- The order in which `range` visits the entries of a Go map. -/
  mapIter : List (String × Signer) → List (String × Signer)
  /-- Ranging over a map visits every entry once. -/
  mapIter_perm : ∀ m, (mapIter m).Perm m
  /-- The table `strconv.IsPrint` on the code points from 0x80 on. -/
  unicodeIsPrint : Nat → Bool

/-- The external operations, in the order the code performs them. -/
inductive Event where
  | homeDir
  | publicKey (path passPhrase : String)
  | agentDial (sock : String)
  | agentSigners (sock : String)
  | sshDial (host : String) (cfg : ClientConfig)
  | connected
  | newSession (id : Nat)
  | run (id : Nat) (cmd : String)
  | closeSession (id : Nat)
  | closeConn
  | unmarshal (data : String)
deriving DecidableEq, Repr

abbrev Trace := List Event

/-! ## `strings` and `fmt` helpers used by the code -/

/-- The function `strings.HasPrefix`. -/
def hasPrefix (s pre : String) : Bool :=
  pre.data.isPrefixOf s.data

/-- The function `strings.Replace(s, old, new, 1)` on character lists:
the first occurrence of `old` in `s` is replaced by `new`. -/
def replaceFirst : List Char → List Char → List Char → List Char
  | [], old, new => if old.isEmpty then new else []
  | c :: cs, old, new =>
    if old.isPrefixOf (c :: cs) then new ++ (c :: cs).drop old.length
    else c :: replaceFirst cs old new

/-- The function `strings.Replace(s, old, new, 1)`. -/
def stringsReplace1 (s old new : String) : String :=
  ⟨replaceFirst s.data old.data new.data⟩

/-- A lower-case hexadecimal digit. -/
def hexDigit (n : Nat) : Char :=
  if n < 10 then Char.ofNat (48 + n) else Char.ofNat (87 + n)

/-- The last `k` hexadecimal digits of `n`, most significant first. -/
def hexDigits : Nat → Nat → List Char
  | 0, _ => []
  | k + 1, n => hexDigits k (n / 16) ++ [hexDigit (n % 16)]

/-- The function `strconv.IsPrint`: on ASCII the range from space to `~`, above
it the table. -/
def isPrint (w : World) (c : Char) : Bool :=
  if c.toNat < 128 then decide (32 ≤ c.toNat ∧ c.toNat < 127) else w.unicodeIsPrint c.toNat

/-- One rune of `strconv.Quote` (`appendEscapedRune` with the double quote). -/
def quoteRune (w : World) (c : Char) : List Char :=
  if c.toNat = 34 ∨ c.toNat = 92 then [Char.ofNat 92, c]
  else if isPrint w c then [c]
  else if c.toNat = 7 then [Char.ofNat 92, 'a']
  else if c.toNat = 8 then [Char.ofNat 92, 'b']
  else if c.toNat = 12 then [Char.ofNat 92, 'f']
  else if c.toNat = 10 then [Char.ofNat 92, 'n']
  else if c.toNat = 13 then [Char.ofNat 92, 'r']
  else if c.toNat = 9 then [Char.ofNat 92, 't']
  else if c.toNat = 11 then [Char.ofNat 92, 'v']
  else if c.toNat < 32 ∨ c.toNat = 127 then [Char.ofNat 92, 'x'] ++ hexDigits 2 c.toNat
  else if c.toNat < 65536 then [Char.ofNat 92, 'u'] ++ hexDigits 4 c.toNat
  else [Char.ofNat 92, 'U'] ++ hexDigits 8 c.toNat

/-- The verb `%q` of `fmt` on a string (`strconv.Quote`). -/
def goQuote (w : World) (s : String) : String :=
  ⟨[Char.ofNat 34] ++ s.data.flatMap (quoteRune w) ++ [Char.ofNat 34]⟩

/-- The text `sub` occurs in the text `msg`. -/
def mentions (msg sub : String) : Prop :=
  sub.data <:+: msg.data

instance (msg sub : String) : Decidable (mentions msg sub) :=
  inferInstanceAs (Decidable (sub.data <:+: msg.data))

/-! ## `resolveHomeDir` -/

/-- The function `resolveHomeDir` (utils.go, lines 52-71). -/
def resolveHomeDir (w : World) (path : String) : Except String String × Trace :=
  if !(path == "~" || hasPrefix path "~/") then
    (.ok path, [])
  else
    match w.homeDir with
    | .error err => (.error err, [Event.homeDir])
    | .ok home => (.ok (stringsReplace1 path "~" home), [Event.homeDir])

/-! ## `validateAndConfigure` -/

/-- The identity stage of `validateAndConfigure` (utils.go, lines 142-157): the
signer loaded from the identity file, if a path is given. -/
def identitySigners (w : World) (iden : String) : Except String (List Signer) × Trace :=
  if iden != "" then
    let value := iden
    let passPhrase :=
      match w.lookupEnv "CONTAINER_PASSPHRASE" with
      | some v => v
      | none => ""
    let passPhrase := if passPhrase == "" then "_empty_pass_" else passPhrase
    match w.publicKey value passPhrase with
    | .error err =>
      (.error (err ++ " failed to read identity " ++ goQuote w value
          ++ ", set 'CONTAINER_PASSPHRASE' variable if password is required"),
        [Event.publicKey value passPhrase])
    | .ok s => (.ok [s], [Event.publicKey value passPhrase])
  else
    (.ok [], [])

/-- The agent stage of `validateAndConfigure` (utils.go, lines 158-175): the
signers held by the agent named by `SSH_AUTH_SOCK`, if the variable is set. -/
def agentSigners (w : World) : Except String (List Signer) × Trace :=
  match w.lookupEnv "SSH_AUTH_SOCK" with
  | none => (.ok [], [])
  | some sock =>
    match w.agentDial sock with
    | some err => (.error err, [Event.agentDial sock])
    | none =>
      match w.agentList sock with
      | .error err => (.error err, [Event.agentDial sock, Event.agentSigners sock])
      | .ok l => (.ok l, [Event.agentDial sock, Event.agentSigners sock])

/-- The assignment `m[k] = v` on a Go map, held as a list of entries. -/
def mapSet : List (String × Signer) → String → Signer → List (String × Signer)
  | [], k, v => [(k, v)]
  | (k', v') :: rest, k, v =>
    if k' = k then (k, v) :: rest else (k', v') :: mapSet rest k v

/-- The first loop of the deduplication (utils.go, lines 178-185): the map
`dedup` after `dedup[fp] = s` for every signer in order. -/
def dedupMap (signers : List Signer) : List (String × Signer) :=
  signers.foldl (fun m s => mapSet m s.fingerprint s) []

/-- The second loop of the deduplication (utils.go, lines 187-190): the slice
`uniq` collected by ranging over the map. -/
def uniqSigners (w : World) (signers : List Signer) : List Signer :=
  (w.mapIter (dedupMap signers)).map Prod.snd

/-- The slice `authMethods` of `validateAndConfigure` (utils.go, lines
176-197). -/
def authMethods (w : World) (uri : URL) (signers : List Signer) : List AuthMethod :=
  let (passwd, passwdSet) := uri.password
  let methods :=
    if signers.length > 0 then [AuthMethod.publicKeysCallback (uniqSigners w signers)]
    else []
  if passwdSet then methods ++ [AuthMethod.password passwd] else methods

/-- The call `time.ParseDuration("40s")`: forty seconds in nanoseconds. -/
def parseDuration40s : Except String Nat :=
  .ok 40000000000

/-- The function `validateAndConfigure` (utils.go, lines 139-209). -/
def validateAndConfigure (w : World) (uri : URL) (iden : String) :
    Except String ClientConfig × Trace :=
  match identitySigners w iden with
  | (.error err, t1) => (.error err, t1)
  | (.ok fromFile, t1) =>
    match agentSigners w with
    | (.error err, t2) => (.error err, t1 ++ t2)
    | (.ok fromAgent, t2) =>
      let signers := fromFile ++ fromAgent
      match parseDuration40s with
      | .error err => (.error err, t1 ++ t2)
      | .ok tick =>
        (.ok { user := uri.username
               auth := authMethods w uri signers
               hostKeyCallback := HostKeyPolicy.insecureIgnoreHostKey
               timeout := tick }, t1 ++ t2)

/-! ## `execRemoteCommand` and `getUDS` -/

/-- The function `execRemoteCommand` (utils.go, lines 211-229).  The client
`dial` is held as the number of `NewSession` calls already made on it. -/
def execRemoteCommand (w : World) (dial : Nat) (run : String) :
    Except String String × Trace :=
  match w.newSession dial with
  | some err => (.error err, [])
  | none =>
    let r := w.run run
    match r.err with
    | some err =>
      (.error (err ++ " " ++ r.stderr),
        [Event.newSession dial, Event.run dial run, Event.closeSession dial])
    | none =>
      (.ok r.stdout, [Event.newSession dial, Event.run dial run, Event.closeSession dial])

/-- The command line run by `getUDS` (utils.go, lines 114-119): the binary
named by `PODMAN_BINARY`, `podman` when the variable is not set, with the fixed
arguments. -/
def infoCommand (w : World) : String :=
  let podman :=
    match w.lookupEnv "PODMAN_BINARY" with
    | some v => v
    | none => "podman"
  podman ++ " info --format=json"

/-- The part of `getUDS` after the first session is open (utils.go, lines
114-133). -/
def discoverSocket (w : World) (uri : URL) : Outcome × Trace :=
  match execRemoteCommand w 1 (infoCommand w) with
  | (.error err, t) => (Outcome.returned ("", some err), t)
  | (.ok infoJSON, t) =>
    match w.unmarshal infoJSON with
    | .error err =>
      (Outcome.returned ("", some (err ++ " failed to parse 'podman info' results")),
        t ++ [Event.unmarshal infoJSON])
    | .ok info =>
      match info.host with
      | none => (Outcome.panicked nilDereference, t ++ [Event.unmarshal infoJSON])
      | some host =>
        match host.remoteSocket with
        | none =>
          (Outcome.returned ("", some ("remote podman " ++ goQuote w uri.host
              ++ " failed to report its UDS socket")), t ++ [Event.unmarshal infoJSON])
        | some rs =>
          if rs.path.length == 0 then
            (Outcome.returned ("", some ("remote podman " ++ goQuote w uri.host
                ++ " failed to report its UDS socket")), t ++ [Event.unmarshal infoJSON])
          else
            (Outcome.returned (rs.path, none), t ++ [Event.unmarshal infoJSON])

/-- The function `getUDS` (utils.go, lines 97-134): how the call ends and the
operations performed.  The two `defer`red `Close` calls run last, the session
before the connection, also when the body panics. -/
def getUDS (w : World) (uri : URL) (iden : String) : Outcome × Trace :=
  match validateAndConfigure w uri iden with
  | (.error err, t) => (Outcome.returned ("", some (err ++ " failed to validate")), t)
  | (.ok cfg, t) =>
    match w.sshDial uri.host cfg with
    | some err =>
      (Outcome.returned ("", some (err ++ " failed to connect")),
        t ++ [Event.sshDial uri.host cfg])
    | none =>
      let onConnection : Outcome × Trace :=
        match w.newSession 0 with
        | some err =>
          (Outcome.returned
            ("", some (err ++ " failed to create new ssh session on " ++ goQuote w uri.host)), [])
        | none =>
          let rest := discoverSocket w uri
          (rest.1, [Event.newSession 0] ++ rest.2 ++ [Event.closeSession 0])
      (onConnection.1,
        t ++ [Event.sshDial uri.host cfg, Event.connected] ++ onConnection.2 ++ [Event.closeConn])

/-! ## Resource accounting on traces -/

/-- The connection and the sessions that are open. -/
structure Resources where
  connOpen : Bool
  sessions : List Nat
deriving DecidableEq, Repr

/-- The effect of one operation on the open resources; `none` when the
operation uses a resource that is not open. -/
def Resources.step (r : Resources) : Event → Option Resources
  | .connected => if r.connOpen then none else some { r with connOpen := true }
  | .newSession id =>
    if r.connOpen && !r.sessions.contains id then some { r with sessions := id :: r.sessions }
    else none
  | .run id _ => if r.sessions.contains id then some r else none
  | .closeSession id =>
    if r.sessions.contains id then some { r with sessions := r.sessions.erase id } else none
  | .closeConn => if r.connOpen then some { r with connOpen := false } else none
  | _ => some r

/-- The resources open after a trace, from a given start. -/
def Resources.after : Resources → Trace → Option Resources
  | r, [] => some r
  | r, e :: es =>
    match r.step e with
    | none => none
    | some r' => Resources.after r' es

/-- The trace uses only open resources and leaves nothing open. -/
def releasesAll (t : Trace) : Bool :=
  Resources.after ⟨false, []⟩ t == some ⟨false, []⟩

/-- The sessions opened in a trace, in order. -/
def sessionsOpened (t : Trace) : List Nat :=
  t.filterMap fun e => match e with
    | .newSession id => some id
    | _ => none

/-- The sessions on which a command was run in a trace, in order. -/
def sessionsRun (t : Trace) : List Nat :=
  t.filterMap fun e => match e with
    | .run id _ => some id
    | _ => none

/-! ## Scripted worlds used as concrete inputs -/

/-- A key held in an identity file. -/
def keyA : Signer := ⟨1, "ssh-ed25519", "SHA256:AAAA"⟩

/-- The same key as `keyA`, held by the agent. -/
def keyA2 : Signer := ⟨2, "ssh-ed25519", "SHA256:AAAA"⟩

/-- A second key held by the agent. -/
def keyB : Signer := ⟨3, "ssh-rsa", "SHA256:BBBB"⟩

/-- The info payload of the remote endpoint. -/
def infoBody : String :=
  "\x7b\"host\":\x7b\"remoteSocket\":\x7b\"path\":\"/run/podman/podman.sock\"\x7d\x7d\x7d"

/-- An info payload with an empty socket path. -/
def emptyPathBody : String :=
  "\x7b\"host\":\x7b\"remoteSocket\":\x7b\"path\":\"\"\x7d\x7d\x7d"

/-- The payload `{}`, an object without a `host` member. -/
def emptyObjectBody : String :=
  "\x7b\x7d"

/-- A decoder that knows the three payloads above. -/
def scriptedUnmarshal (s : String) : Except String Info :=
  if s = infoBody then .ok ⟨some ⟨some ⟨"/run/podman/podman.sock", true⟩⟩⟩
  else if s = emptyPathBody then .ok ⟨some ⟨some ⟨"", false⟩⟩⟩
  else if s = emptyObjectBody then .ok ⟨none⟩
  else .error "unexpected end of JSON input"

/-- An endpoint where everything succeeds: no environment variable is set, the
identity file holds `keyA`, the remote command prints `infoBody`. -/
def goodWorld : World where
  lookupEnv := fun _ => none
  homeDir := .ok "/home/core"
  publicKey := fun _ _ => .ok keyA
  agentDial := fun _ => none
  agentList := fun _ => .ok [keyA2, keyB]
  sshDial := fun _ _ => none
  newSession := fun _ => none
  run := fun _ => ⟨none, infoBody, ""⟩
  unmarshal := scriptedUnmarshal
  mapIter := fun m => m
  mapIter_perm := fun _ => List.Perm.refl _
  unicodeIsPrint := fun _ => false

/-- The target of the scripted worlds: user `core` with password `pw`. -/
def demoURL : URL := ⟨"example.com:22", some ⟨"core", "pw", true⟩⟩

/-- The endpoint of `goodWorld` reporting an empty socket path. -/
def emptyPathWorld : World :=
  { goodWorld with run := fun _ => ⟨none, emptyPathBody, ""⟩ }

/-- The endpoint of `goodWorld` printing the payload `{}`. -/
def nilHostWorld : World :=
  { goodWorld with run := fun _ => ⟨none, emptyObjectBody, ""⟩ }

/-- The endpoint of `goodWorld` where the remote command fails. -/
def deniedWorld : World :=
  { goodWorld with run := fun _ => ⟨some "Process exited with status 125", "", "permission denied"⟩ }

/-- The endpoint of `goodWorld` where the handshake fails. -/
def refusedWorld : World :=
  { goodWorld with sshDial := fun _ _ => some "ssh: handshake failed: EOF" }

/-- The endpoint of `goodWorld` where no session can be opened. -/
def noSessionWorld : World :=
  { goodWorld with newSession := fun _ => some "ssh: rejected: administratively prohibited" }

/-- The world of `goodWorld` with an agent advertised at a socket that cannot
be reached. -/
def deadAgentWorld : World :=
  { goodWorld with
    lookupEnv := fun k => if k = "SSH_AUTH_SOCK" then some "/tmp/agent.sock" else none
    agentDial := fun _ => some "dial unix /tmp/agent.sock: connect: no such file or directory" }

/-- The world of `goodWorld` with a reachable agent holding `keyA2` and
`keyB`. -/
def agentWorld : World :=
  { goodWorld with
    lookupEnv := fun k => if k = "SSH_AUTH_SOCK" then some "/tmp/agent.sock" else none }

/-- The world of `goodWorld` with `CONTAINER_PASSPHRASE` set to the empty
string. -/
def emptyPassphraseWorld : World :=
  { goodWorld with
    lookupEnv := fun k => if k = "CONTAINER_PASSPHRASE" then some "" else none }

/-- The world of `goodWorld` with `CONTAINER_PASSPHRASE` set to `hunter2`. -/
def passphraseWorld : World :=
  { goodWorld with
    lookupEnv := fun k => if k = "CONTAINER_PASSPHRASE" then some "hunter2" else none }

/-- A text of printable ASCII characters other than the double quote and the
backslash, which `%q` renders unchanged between quotes. -/
def plainText (s : String) : Prop :=
  ∀ c ∈ s.data, 32 ≤ c.toNat ∧ c.toNat < 127 ∧ c.toNat ≠ 34 ∧ c.toNat ≠ 92

instance (s : String) : Decidable (plainText s) :=
  inferInstanceAs (Decidable (∀ c ∈ s.data, _))

/-- The operation acts on the SSH connection or on one of its sessions. -/
def Event.onConnection : Event → Bool
  | .connected => true
  | .newSession _ => true
  | .run _ _ => true
  | .closeSession _ => true
  | .closeConn => true
  | _ => false

/-! ## Theorems -/

/-- A text mentions its own beginning. -/
theorem mentions_append_left (a b : String) : mentions (a ++ b) a := by
  unfold mentions
  rw [String.data_append]
  exact (List.prefix_append _ _).isInfix

/-- A text mentions its own end. -/
theorem mentions_append_right (a b : String) : mentions (a ++ b) b := by
  unfold mentions
  rw [String.data_append]
  exact (List.suffix_append _ _).isInfix

/-- Mentioning is transitive. -/
theorem mentions_trans {a b c : String} (h1 : mentions a b) (h2 : mentions b c) : mentions a c :=
  List.IsInfix.trans h2 h1

/-- The test `len(s) == 0` holds exactly for the empty string. -/
theorem length_eq_zero_iff (s : String) : (s.length == 0) = true ↔ s = "" := by
  cases s with
  | mk l =>
    cases l with
    | nil => simp [String.length]
    | cons c cs =>
      simp [String.length]
      intro h
      have := congrArg String.data h
      simp at this

/-- Quoting leaves plain characters unchanged. -/
theorem flatMap_quoteRune_plain (w : World) (l : List Char)
    (h : ∀ c ∈ l, 32 ≤ c.toNat ∧ c.toNat < 127 ∧ c.toNat ≠ 34 ∧ c.toNat ≠ 92) :
    l.flatMap (quoteRune w) = l := by
  induction l with
  | nil => rfl
  | cons c cs ih =>
    have hc := h c (List.mem_cons_self _ _)
    have hq : quoteRune w c = [c] := by
      have h128 : c.toNat < 128 := by omega
      simp [quoteRune, isPrint, hc.1, hc.2.1, hc.2.2.1, hc.2.2.2, h128]
    rw [List.flatMap_cons, hq, ih (fun d hd => h d (List.mem_cons_of_mem _ hd))]
    rfl

/-- The `%q` rendering of a plain text contains the text itself. -/
theorem goQuote_mentions_plain (w : World) (s : String) (h : plainText s) :
    mentions (goQuote w s) s := by
  unfold mentions goQuote
  rw [flatMap_quoteRune_plain w s.data h]
  exact ⟨[Char.ofNat 34], [Char.ofNat 34], rfl⟩

/-- Claim C9: a path that is neither `~` nor begins with `~/` is returned unchanged,
without error and without a home directory lookup; otherwise, when the lookup
yields `h`, the result is `h` followed by the path without its leading `~`
(later occurrences of `~` stay), and when the lookup fails the error is
returned with no path. -/
theorem resolveHomeDir_spec (w : World) (path : String) :
    (¬ (path = "~" ∨ "~/".data <+: path.data) → resolveHomeDir w path = (.ok path, [])) ∧
    ((path = "~" ∨ "~/".data <+: path.data) →
      (∀ h, w.homeDir = .ok h →
        resolveHomeDir w path = (.ok ⟨h.data ++ path.data.drop 1⟩, [Event.homeDir])) ∧
      (∀ e, w.homeDir = .error e → resolveHomeDir w path = (.error e, [Event.homeDir]))) := by
  have hpre : hasPrefix path "~/" = true ↔ "~/".data <+: path.data := by
    simp [hasPrefix]
  have hhead : (path = "~" ∨ "~/".data <+: path.data) → ∃ rest, path.data = '~' :: rest := by
    rintro (h | ⟨t, ht⟩)
    · exact ⟨[], by rw [h]⟩
    · exact ⟨'/' :: t, by rw [← ht]; rfl⟩
  refine ⟨fun hn => ?_, fun hy => ⟨fun h hh => ?_, fun e he => ?_⟩⟩
  · have h1 : ¬ path = "~" := fun h => hn (Or.inl h)
    have h2 : hasPrefix path "~/" = false := by
      rw [Bool.eq_false_iff]; exact fun h => hn (Or.inr (hpre.mp h))
    simp [resolveHomeDir, h1, h2]
  · obtain ⟨rest, hrest⟩ := hhead hy
    have hc : (path == "~" || hasPrefix path "~/") = true := by
      rcases hy with h | h
      · simp [h]
      · simp [hpre.mpr h]
    simp [resolveHomeDir, hc, hh, stringsReplace1, hrest, replaceFirst]
  · have hc : (path == "~" || hasPrefix path "~/") = true := by
      rcases hy with h | h
      · simp [h]
      · simp [hpre.mpr h]
    simp [resolveHomeDir, hc, he]

/-- The three cases of C9 on `~user/x`, `a/~/b` and `~/a~b` with home
`/home/core`. -/
theorem resolveHomeDir_spec_witness :
    resolveHomeDir goodWorld "~user/x" = (.ok "~user/x", []) ∧
    resolveHomeDir goodWorld "a/~/b" = (.ok "a/~/b", []) ∧
    resolveHomeDir goodWorld "~/a~b" = (.ok "/home/core/a~b", [Event.homeDir]) :=
  ⟨(resolveHomeDir_spec goodWorld "~user/x").1 (by decide),
   (resolveHomeDir_spec goodWorld "a/~/b").1 (by decide),
   ((resolveHomeDir_spec goodWorld "~/a~b").2 (Or.inr (by decide))).1 "/home/core" rfl⟩

/-- Claim C1: when client configuration, the handshake, both session creations
and the remote info command succeed and stdout decodes to a payload whose
`host.remoteSocket` is present with a non-empty path, `getUDS` returns exactly
that path and no error. -/
theorem getUDS_reported_path (w : World) (uri : URL) (iden : String) (cfg : ClientConfig)
    (t : Trace) (info : Info) (host : HostInfo) (rs : RemoteSocket)
    (hcfg : validateAndConfigure w uri iden = (.ok cfg, t))
    (hdial : w.sshDial uri.host cfg = none)
    (hs0 : w.newSession 0 = none) (hs1 : w.newSession 1 = none)
    (hrun : (w.run (infoCommand w)).err = none)
    (hjson : w.unmarshal (w.run (infoCommand w)).stdout = .ok info)
    (hhost : info.host = some host)
    (hrs : host.remoteSocket = some rs) (hp : rs.path ≠ "") :
    (getUDS w uri iden).1 = Outcome.returned (rs.path, none) := by
  have hlen : (rs.path.length == 0) = false := by
    rw [Bool.eq_false_iff]; exact fun h => hp ((length_eq_zero_iff _).mp h)
  simp [getUDS, hcfg, hdial, hs0, discoverSocket, execRemoteCommand, hs1, hrun, hjson, hhost,
    hrs, hlen]

/-- The endpoint printing the payload with path `/run/podman/podman.sock` yields
that path. -/
theorem getUDS_reported_path_witness :
    (getUDS goodWorld demoURL "").1 = Outcome.returned ("/run/podman/podman.sock", none) :=
  getUDS_reported_path goodWorld demoURL "" _ _ _ _ ⟨"/run/podman/podman.sock", true⟩
    rfl rfl rfl rfl rfl rfl rfl rfl (by decide)

/-- The case of C2 that the code handles: when the remote command succeeds and
stdout decodes to a payload whose `Host` is present but whose `remoteSocket` is
nil or has an empty path, `getUDS` returns the empty string and the error
`remote podman <host> failed to report its UDS socket`, where `<host>` is the
`%q` rendering of `uri.Host`; for a plain host the message contains the host
verbatim. -/
theorem getUDS_socket_not_reported (w : World) (uri : URL) (iden : String) (cfg : ClientConfig)
    (t : Trace) (info : Info) (host : HostInfo)
    (hcfg : validateAndConfigure w uri iden = (.ok cfg, t))
    (hdial : w.sshDial uri.host cfg = none)
    (hs0 : w.newSession 0 = none) (hs1 : w.newSession 1 = none)
    (hrun : (w.run (infoCommand w)).err = none)
    (hjson : w.unmarshal (w.run (infoCommand w)).stdout = .ok info)
    (hhost : info.host = some host)
    (hmissing : host.remoteSocket = none ∨
      ∃ rs, host.remoteSocket = some rs ∧ rs.path = "") :
    (getUDS w uri iden).1 =
        Outcome.returned
          ("", some ("remote podman " ++ goQuote w uri.host ++ " failed to report its UDS socket")) ∧
      mentions ("remote podman " ++ goQuote w uri.host ++ " failed to report its UDS socket")
        (goQuote w uri.host) ∧
      (plainText uri.host →
        mentions ("remote podman " ++ goQuote w uri.host ++ " failed to report its UDS socket")
          uri.host) := by
  have hq : mentions ("remote podman " ++ goQuote w uri.host ++ " failed to report its UDS socket")
      (goQuote w uri.host) :=
    mentions_trans (mentions_append_left _ _) (mentions_append_right _ _)
  refine ⟨?_, hq, fun hplain => mentions_trans hq (goQuote_mentions_plain w _ hplain)⟩
  rcases hmissing with hnone | ⟨rs, hrs, hempty⟩
  · simp [getUDS, hcfg, hdial, hs0, discoverSocket, execRemoteCommand, hs1, hrun, hjson, hhost,
      hnone]
  · have hlen : (rs.path.length == 0) = true := (length_eq_zero_iff _).mpr hempty
    simp [getUDS, hcfg, hdial, hs0, discoverSocket, execRemoteCommand, hs1, hrun, hjson, hhost,
      hrs, hlen]

/-- The endpoint reporting an empty path fails with a message naming `example.com:22`. -/
theorem getUDS_socket_not_reported_witness :
    (getUDS emptyPathWorld demoURL "").1 =
        Outcome.returned
          ("", some "remote podman \"example.com:22\" failed to report its UDS socket") ∧
      mentions "remote podman \"example.com:22\" failed to report its UDS socket"
        "\"example.com:22\"" ∧
      (plainText "example.com:22" →
        mentions "remote podman \"example.com:22\" failed to report its UDS socket"
          "example.com:22") :=
  getUDS_socket_not_reported emptyPathWorld demoURL "" _ _ _ ⟨some ⟨"", false⟩⟩
    rfl rfl rfl rfl rfl rfl rfl (Or.inr ⟨_, rfl, rfl⟩)

/-- Claim C2 at the payload `{}`: the remote command succeeds and its stdout
decodes to a payload with no `remoteSocket` structure, here with a nil `Host`,
and `getUDS` does not return the error naming the host: reading
`info.Host.RemoteSocket` panics with a nil pointer dereference.  The session and
the connection are still closed. -/
theorem getUDS_nil_host_panics :
    (nilHostWorld.run (infoCommand nilHostWorld)).err = none ∧
      nilHostWorld.unmarshal (nilHostWorld.run (infoCommand nilHostWorld)).stdout = .ok ⟨none⟩ ∧
      (getUDS nilHostWorld demoURL "").1 = Outcome.panicked nilDereference ∧
      (getUDS nilHostWorld demoURL "").1 ≠
        Outcome.returned
          ("", some "remote podman \"example.com:22\" failed to report its UDS socket") ∧
      releasesAll (getUDS nilHostWorld demoURL "").2 = true := by
  refine ⟨rfl, rfl, rfl, ?_, rfl⟩
  decide

/-- Claim C3: when `sess.Run` fails with error `e` while stderr holds `s`,
`execRemoteCommand` returns no stdout and the error `e s`, which contains both
texts, and `getUDS`, having reached the command, returns the empty string with
that same error. -/
theorem remote_failure_keeps_stderr (w : World) (uri : URL) (iden : String)
    (cfg : ClientConfig) (t : Trace) (dial : Nat) (cmd e : String)
    (hsess : w.newSession dial = none)
    (hrun : (w.run cmd).err = some e) :
    (execRemoteCommand w dial cmd).1 = .error (e ++ " " ++ (w.run cmd).stderr) ∧
      mentions (e ++ " " ++ (w.run cmd).stderr) e ∧
      mentions (e ++ " " ++ (w.run cmd).stderr) (w.run cmd).stderr ∧
      (cmd = infoCommand w → dial = 1 →
        validateAndConfigure w uri iden = (.ok cfg, t) → w.sshDial uri.host cfg = none →
        w.newSession 0 = none →
        (getUDS w uri iden).1 = Outcome.returned ("", some (e ++ " " ++ (w.run cmd).stderr))) := by
  refine ⟨?_, mentions_trans (mentions_append_left _ _) (mentions_append_left _ _),
    mentions_append_right _ _, ?_⟩
  · simp [execRemoteCommand, hsess, hrun]
  · intro hcmd hd hcfg hdial hs0
    subst hcmd; subst hd
    simp [getUDS, hcfg, hdial, hs0, discoverSocket, execRemoteCommand, hsess, hrun]

/-- The keys of a map after an assignment. -/
theorem mapSet_keys (m : List (String × Signer)) (k : String) (v : Signer) :
    (mapSet m k v).map Prod.fst =
      if k ∈ m.map Prod.fst then m.map Prod.fst else m.map Prod.fst ++ [k] := by
  induction m with
  | nil => simp [mapSet]
  | cons p rest ih =>
    obtain ⟨k', v'⟩ := p
    by_cases h : k' = k
    · simp [mapSet, h]
    · have h' : ¬ k = k' := fun e => h e.symm
      by_cases hk : k ∈ rest.map Prod.fst
      · simp only [mapSet, h, if_false, List.map_cons, ih, hk, if_true, List.mem_cons, or_true]
      · simp only [mapSet, h, if_false, List.map_cons, ih, hk, List.mem_cons, h', or_self,
          List.cons_append]

/-- The entries of a map after an assignment. -/
theorem mapSet_mem (m : List (String × Signer)) (k : String) (v : Signer) (p : String × Signer)
    (hp : p ∈ mapSet m k v) : p = (k, v) ∨ p ∈ m := by
  induction m with
  | nil => simp [mapSet] at hp; exact Or.inl hp
  | cons q rest ih =>
    obtain ⟨k', v'⟩ := q
    by_cases h : k' = k
    · simp only [mapSet, h, if_true, List.mem_cons] at hp
      rcases hp with hp | hp
      · exact Or.inl hp
      · exact Or.inr (List.mem_cons_of_mem _ hp)
    · simp only [mapSet, h, if_false, List.mem_cons] at hp
      rcases hp with hp | hp
      · exact Or.inr (hp ▸ List.mem_cons_self _ _)
      · rcases ih hp with h1 | h1
        · exact Or.inl h1
        · exact Or.inr (List.mem_cons_of_mem _ h1)

/-- The invariant of the deduplication loop, from any starting map. -/
theorem dedup_loop_invariant (signers : List Signer) (m : List (String × Signer))
    (hnodup : (m.map Prod.fst).Nodup) :
    let m' := signers.foldl (fun m s => mapSet m s.fingerprint s) m
    (m'.map Prod.fst).Nodup ∧
      (∀ k, k ∈ m'.map Prod.fst ↔ k ∈ m.map Prod.fst ∨ k ∈ signers.map Signer.fingerprint) ∧
      (∀ p ∈ m', p ∈ m ∨ (p.2 ∈ signers ∧ p.1 = p.2.fingerprint)) := by
  induction signers generalizing m with
  | nil => simp [hnodup]
  | cons s rest ih =>
    have hn : ((mapSet m s.fingerprint s).map Prod.fst).Nodup := by
      rw [mapSet_keys]
      split
      · exact hnodup
      · rename_i hk
        exact List.Nodup.append hnodup (List.nodup_singleton _) (by simpa using hk)
    obtain ⟨h1, h2, h3⟩ := ih (mapSet m s.fingerprint s) hn
    refine ⟨h1, fun k => ?_, fun p hp => ?_⟩
    · rw [List.foldl_cons, h2 k, mapSet_keys]
      split
      · rename_i hk
        simp only [List.map_cons, List.mem_cons]
        constructor
        · rintro (h | h)
          · exact Or.inl h
          · exact Or.inr (Or.inr h)
        · rintro (h | h | h)
          · exact Or.inl h
          · exact Or.inl (h ▸ hk)
          · exact Or.inr h
      · simp only [List.map_cons, List.mem_cons, List.mem_append, List.mem_singleton]
        tauto
    · rcases h3 p hp with h | ⟨h, h'⟩
      · rcases mapSet_mem _ _ _ _ h with h | h
        · exact Or.inr ⟨by rw [h]; exact List.mem_cons_self _ _, by rw [h]⟩
        · exact Or.inl h
      · exact Or.inr ⟨List.mem_cons_of_mem _ h, h'⟩

/-- The slice `uniq` has one signer per distinct fingerprint of the input, for
every input and every iteration order of the map. -/
theorem uniqSigners_spec (w : World) (signers : List Signer) :
    ((uniqSigners w signers).map Signer.fingerprint).Nodup ∧
      (∀ s ∈ signers, s.fingerprint ∈ (uniqSigners w signers).map Signer.fingerprint) ∧
      (∀ s ∈ uniqSigners w signers, s ∈ signers) ∧
      (uniqSigners w signers).length = ((signers.map Signer.fingerprint).dedup).length := by
  obtain ⟨h1, h2, h3⟩ := dedup_loop_invariant signers [] (by simp)
  simp only [List.map_nil, List.not_mem_nil, false_or] at h2 h3
  have hperm := w.mapIter_perm (dedupMap signers)
  have hfp : (uniqSigners w signers).map Signer.fingerprint =
      (w.mapIter (dedupMap signers)).map Prod.fst := by
    unfold uniqSigners
    rw [List.map_map]
    apply List.map_congr_left
    intro p hp
    exact ((h3 p (hperm.subset hp)).2).symm
  have hkeys : ((w.mapIter (dedupMap signers)).map Prod.fst).Perm ((dedupMap signers).map Prod.fst) :=
    hperm.map _
  refine ⟨?_, ?_, ?_, ?_⟩
  · rw [hfp]; exact hkeys.nodup_iff.mpr h1
  · intro s hs
    rw [hfp]
    exact hkeys.symm.subset ((h2 _).mpr (List.mem_map_of_mem _ hs))
  · intro s hs
    unfold uniqSigners at hs
    obtain ⟨p, hp, rfl⟩ := List.mem_map.mp hs
    exact (h3 p (hperm.subset hp)).1
  · have hlen : (uniqSigners w signers).length = ((dedupMap signers).map Prod.fst).length := by
      rw [← List.length_map (uniqSigners w signers) Signer.fingerprint, hfp]; exact hkeys.length_eq
    have h1' : ((dedupMap signers).map Prod.fst).Nodup := h1
    have h2' : ∀ k, k ∈ (dedupMap signers).map Prod.fst ↔ k ∈ signers.map Signer.fingerprint := h2
    rw [hlen, ← List.toFinset_card_of_nodup h1', ← List.card_toFinset]
    congr 1
    ext k
    simp only [List.mem_toFinset]
    exact h2' k

/-- A successful `validateAndConfigure` comes from two successful stages and
carries the auth methods built from their signers. -/
theorem validate_ok_inv (w : World) (uri : URL) (iden : String) (cfg : ClientConfig) (t : Trace)
    (h : validateAndConfigure w uri iden = (.ok cfg, t)) :
    ∃ fromFile fromAgent t1 t2,
      identitySigners w iden = (.ok fromFile, t1) ∧ agentSigners w = (.ok fromAgent, t2) ∧
      cfg.auth = authMethods w uri (fromFile ++ fromAgent) ∧ cfg.user = uri.username ∧
      cfg.timeout = 40000000000 ∧ t = t1 ++ t2 := by
  unfold validateAndConfigure at h
  rcases h1 : identitySigners w iden with ⟨r1, t1⟩
  rcases h2 : agentSigners w with ⟨r2, t2⟩
  rw [h1] at h
  cases r1 with
  | error e => simp at h
  | ok fromFile =>
    simp only [h2] at h
    cases r2 with
    | error e => simp at h
    | ok fromAgent =>
      simp only [parseDuration40s, Prod.mk.injEq, Except.ok.injEq] at h
      obtain ⟨hc, ht⟩ := h
      exact ⟨fromFile, fromAgent, t1, t2, rfl, rfl, by rw [← hc], by rw [← hc], by rw [← hc],
        ht.symm⟩

/-- Deduplicating a single signer gives that signer. -/
theorem uniqSigners_singleton (w : World) (s : Signer) : uniqSigners w [s] = [s] := by
  have h := w.mapIter_perm (dedupMap [s])
  have hd : dedupMap [s] = [(s.fingerprint, s)] := rfl
  rw [hd, List.perm_singleton] at h
  simp [uniqSigners, hd, h]

/-- Claim C4: the list handed to `ssh.PublicKeysCallback` by a successful
`validateAndConfigure` is the deduplication of the gathered signers (identity
file first, then agent): its fingerprints are pairwise distinct, every
fingerprint of the gathered signers occurs in it, its entries are gathered
signers, and its length is the number of distinct fingerprints gathered. -/
theorem dedup_one_signer_per_fingerprint (w : World) (uri : URL) (iden : String)
    (cfg : ClientConfig) (t : Trace) (uniq : List Signer)
    (hcfg : validateAndConfigure w uri iden = (.ok cfg, t))
    (hauth : AuthMethod.publicKeysCallback uniq ∈ cfg.auth) :
    ∃ fromFile fromAgent,
      (identitySigners w iden).1 = .ok fromFile ∧ (agentSigners w).1 = .ok fromAgent ∧
      uniq = uniqSigners w (fromFile ++ fromAgent) ∧
      (uniq.map Signer.fingerprint).Nodup ∧
      (∀ s ∈ fromFile ++ fromAgent, s.fingerprint ∈ uniq.map Signer.fingerprint) ∧
      (∀ s ∈ uniq, s ∈ fromFile ++ fromAgent) ∧
      uniq.length = (((fromFile ++ fromAgent).map Signer.fingerprint).dedup).length := by
  obtain ⟨fromFile, fromAgent, t1, t2, h1, h2, ha, -, -, -⟩ := validate_ok_inv w uri iden cfg t hcfg
  have hu : uniq = uniqSigners w (fromFile ++ fromAgent) := by
    rw [ha] at hauth
    unfold authMethods at hauth
    by_cases hl : (fromFile ++ fromAgent).length > 0 <;> by_cases hp : uri.password.2 = true <;>
      simp [hl, hp] at hauth <;> exact hauth.2
  obtain ⟨p1, p2, p3, p4⟩ := uniqSigners_spec w (fromFile ++ fromAgent)
  refine ⟨fromFile, fromAgent, by rw [h1], by rw [h2], hu, ?_, ?_, ?_, ?_⟩ <;> rw [hu] <;> assumption

/-- The slice `authMethods` as a concatenation of its two optional entries. -/
theorem authMethods_eq (w : World) (uri : URL) (signers : List Signer) :
    authMethods w uri signers =
      (if signers ≠ [] then [AuthMethod.publicKeysCallback (uniqSigners w signers)] else []) ++
      (if uri.password.2 = true then [AuthMethod.password uri.password.1] else []) := by
  unfold authMethods
  cases signers with
  | nil => by_cases hp : uri.password.2 = true <;> simp [hp]
  | cons s rest => by_cases hp : uri.password.2 = true <;> simp [hp]

/-- Claim C5: on success the auth methods are a public-key method exactly when
some signer was gathered, followed by a password method exactly when the URI
carries a password, and nothing else; no signer and no password give the empty
sequence, one signer and a password give the public-key method then the
password method. -/
theorem auth_methods_sequence (w : World) (uri : URL) (iden : String)
    (cfg : ClientConfig) (t : Trace)
    (hcfg : validateAndConfigure w uri iden = (.ok cfg, t)) :
    ∃ fromFile fromAgent,
      (identitySigners w iden).1 = .ok fromFile ∧ (agentSigners w).1 = .ok fromAgent ∧
      cfg.auth =
        (if fromFile ++ fromAgent ≠ [] then
          [AuthMethod.publicKeysCallback (uniqSigners w (fromFile ++ fromAgent))] else []) ++
        (if uri.password.2 = true then [AuthMethod.password uri.password.1] else []) ∧
      (fromFile ++ fromAgent = [] → uri.password.2 = false → cfg.auth = []) ∧
      (∀ s, fromFile ++ fromAgent = [s] → uri.password.2 = true →
        cfg.auth = [AuthMethod.publicKeysCallback [s], AuthMethod.password uri.password.1]) := by
  obtain ⟨fromFile, fromAgent, t1, t2, h1, h2, ha, -, -, -⟩ := validate_ok_inv w uri iden cfg t hcfg
  refine ⟨fromFile, fromAgent, by rw [h1], by rw [h2], ?_, ?_, ?_⟩
  · rw [ha, authMethods_eq]
  · intro hs hp
    rw [ha, authMethods_eq, hs, hp]
    simp
  · intro s hs hp
    rw [ha, authMethods_eq, hs, hp, uniqSigners_singleton]
    simp

/-- Claim C7: when `SSH_AUTH_SOCK` is set and connecting to the socket or listing
the agent signers fails, `validateAndConfigure` returns an error, for every
URI and identity path (the agent error itself once the identity stage has
passed); when the variable is not set the agent stage yields no signer, no
error and performs no operation, and the configuration is built from the
identity signers alone. -/
theorem agent_failure_is_fatal (w : World) (uri : URL) (iden : String) :
    (∀ sock e, w.lookupEnv "SSH_AUTH_SOCK" = some sock →
      (w.agentDial sock = some e ∨ (w.agentDial sock = none ∧ w.agentList sock = .error e)) →
      (agentSigners w).1 = .error e ∧
        ∃ msg, (validateAndConfigure w uri iden).1 = .error msg ∧
          (∀ fromFile, (identitySigners w iden).1 = .ok fromFile → msg = e)) ∧
    (w.lookupEnv "SSH_AUTH_SOCK" = none →
      agentSigners w = (.ok [], []) ∧
        ∀ fromFile t1, identitySigners w iden = (.ok fromFile, t1) →
          ∃ cfg, validateAndConfigure w uri iden = (.ok cfg, t1) ∧
            cfg.auth = authMethods w uri fromFile) := by
  constructor
  · intro sock e hsock hfail
    have hag : (agentSigners w).1 = .error e := by
      rcases hfail with h | ⟨h, h'⟩
      · simp [agentSigners, hsock, h]
      · simp [agentSigners, hsock, h, h']
    refine ⟨hag, ?_⟩
    unfold validateAndConfigure
    rcases h1 : identitySigners w iden with ⟨r1, t1⟩
    rcases h2 : agentSigners w with ⟨r2, t2⟩
    rw [h2] at hag
    simp only at hag
    subst hag
    cases r1 with
    | error e1 => exact ⟨e1, rfl, fun _ h => by simp at h⟩
    | ok fromFile => exact ⟨e, rfl, fun _ _ => rfl⟩
  · intro hnone
    have hag : agentSigners w = (.ok [], []) := by simp [agentSigners, hnone]
    refine ⟨hag, fun fromFile t1 h1 => ?_⟩
    simp [validateAndConfigure, h1, hag, parseDuration40s]

/-- Counterexample to C8 as stated: with `CONTAINER_PASSPHRASE` set to the empty
string the key loader receives `_empty_pass_`, not the value of the variable. -/
theorem passphrase_empty_value_replaced :
    emptyPassphraseWorld.lookupEnv "CONTAINER_PASSPHRASE" = some "" ∧
    (validateAndConfigure emptyPassphraseWorld demoURL "/home/core/.ssh/id_ed25519").2 =
      [Event.publicKey "/home/core/.ssh/id_ed25519" "_empty_pass_"] := by
  decide

/-- The agent stage never calls the key loader. -/
theorem agentSigners_no_publicKey (w : World) (path pass : String) :
    Event.publicKey path pass ∉ (agentSigners w).2 := by
  unfold agentSigners
  split
  · simp
  · split
    · simp
    · split <;> simp

/-- The key loader calls of `validateAndConfigure` are those of its identity stage. -/
theorem validate_publicKey_events (w : World) (uri : URL) (iden : String) (path pass : String) :
    Event.publicKey path pass ∈ (validateAndConfigure w uri iden).2 ↔
      Event.publicKey path pass ∈ (identitySigners w iden).2 := by
  have hag := agentSigners_no_publicKey w path pass
  unfold validateAndConfigure
  rcases h1 : identitySigners w iden with ⟨r1, t1⟩
  rcases h2 : agentSigners w with ⟨r2, t2⟩
  rw [h2] at hag
  cases r1 with
  | error e => simp
  | ok fromFile =>
    cases r2 with
    | error e => simpa using fun h => absurd h hag
    | ok fromAgent => simpa [parseDuration40s] using fun h => absurd h hag

/-- Claim C8, amended: for a non-empty identity path the key loader is called
exactly with that path and with the value of `CONTAINER_PASSPHRASE` when the
variable is set to a non-empty value, and with the sentinel `_empty_pass_` when
the variable is unset or set to the empty string. -/
theorem passphrase_handed_to_loader (w : World) (uri : URL) (iden : String) (hiden : iden ≠ "") :
    (∀ v, w.lookupEnv "CONTAINER_PASSPHRASE" = some v → v ≠ "" →
      ∀ path pass, Event.publicKey path pass ∈ (validateAndConfigure w uri iden).2 ↔
        (path = iden ∧ pass = v)) ∧
    (w.lookupEnv "CONTAINER_PASSPHRASE" = none ∨ w.lookupEnv "CONTAINER_PASSPHRASE" = some "" →
      ∀ path pass, Event.publicKey path pass ∈ (validateAndConfigure w uri iden).2 ↔
        (path = iden ∧ pass = "_empty_pass_")) := by
  constructor
  · intro v hv hne path pass
    rw [validate_publicKey_events]
    unfold identitySigners
    simp only [hv, bne_iff_ne, ne_eq, hiden, not_false_eq_true, if_true, beq_iff_eq, hne, if_false]
    split <;> simp
  · intro hv path pass
    rw [validate_publicKey_events]
    unfold identitySigners
    rcases hv with hv | hv <;>
      simp only [hv, bne_iff_ne, ne_eq, hiden, not_false_eq_true, if_true, beq_self_eq_true] <;>
      split <;> simp

/-- The passphrase `hunter2`, and the empty passphrase replaced by the sentinel. -/
theorem passphrase_handed_to_loader_witness :
    (∀ path pass, Event.publicKey path pass ∈
        (validateAndConfigure passphraseWorld demoURL "/home/core/.ssh/id_ed25519").2 ↔
        (path = "/home/core/.ssh/id_ed25519" ∧ pass = "hunter2")) ∧
    (∀ path pass, Event.publicKey path pass ∈
        (validateAndConfigure emptyPassphraseWorld demoURL "/home/core/.ssh/id_ed25519").2 ↔
        (path = "/home/core/.ssh/id_ed25519" ∧ pass = "_empty_pass_")) :=
  ⟨(passphrase_handed_to_loader passphraseWorld demoURL "/home/core/.ssh/id_ed25519"
      (by decide)).1 "hunter2" rfl (by decide),
   (passphrase_handed_to_loader emptyPassphraseWorld demoURL "/home/core/.ssh/id_ed25519"
      (by decide)).2 (Or.inr rfl)⟩

/-- Counterexample to C6 as stated: a failed handshake to `example.com:22` gives
a message that does not contain the host. -/
theorem connect_error_omits_host :
    (getUDS refusedWorld demoURL "").1 =
        Outcome.returned ("", some "ssh: handshake failed: EOF failed to connect") ∧
      ¬ mentions "ssh: handshake failed: EOF failed to connect" "example.com:22" := by
  decide

/-- Claim C6, amended: when client configuration succeeds and the handshake
fails with error `e`, `getUDS` returns the empty string and the error
`e failed to connect`, which contains the text of `e`. -/
theorem connect_failure_wraps_cause (w : World) (uri : URL) (iden : String)
    (cfg : ClientConfig) (t : Trace) (e : String)
    (hcfg : validateAndConfigure w uri iden = (.ok cfg, t))
    (hdial : w.sshDial uri.host cfg = some e) :
    (getUDS w uri iden).1 = Outcome.returned ("", some (e ++ " failed to connect")) ∧
      mentions (e ++ " failed to connect") e := by
  refine ⟨?_, mentions_append_left _ _⟩
  simp [getUDS, hcfg, hdial]

/-- An operation off the connection leaves the open resources unchanged. -/
theorem step_off_connection (r : Resources) (e : Event) (h : e.onConnection = false) :
    r.step e = some r := by
  cases e <;> simp [Event.onConnection] at h <;> rfl

/-- Operations off the connection can be skipped in the accounting. -/
theorem after_off_connection (r : Resources) (t t' : Trace)
    (h : ∀ e ∈ t, e.onConnection = false) :
    Resources.after r (t ++ t') = Resources.after r t' := by
  induction t with
  | nil => rfl
  | cons e es ih =>
    rw [List.cons_append, Resources.after, step_off_connection r e (h e (List.mem_cons_self _ _))]
    exact ih (fun d hd => h d (List.mem_cons_of_mem _ hd))

/-- Operations off the connection open no session. -/
theorem sessionsOpened_off_connection (t t' : Trace) (h : ∀ e ∈ t, e.onConnection = false) :
    sessionsOpened (t ++ t') = sessionsOpened t' := by
  induction t with
  | nil => rfl
  | cons e es ih =>
    have he := h e (List.mem_cons_self _ _)
    have ih' := ih (fun d hd => h d (List.mem_cons_of_mem _ hd))
    unfold sessionsOpened at ih' ⊢
    cases e <;> simp [Event.onConnection] at he <;> simpa using ih'

/-- Operations off the connection run no command. -/
theorem sessionsRun_off_connection (t t' : Trace) (h : ∀ e ∈ t, e.onConnection = false) :
    sessionsRun (t ++ t') = sessionsRun t' := by
  induction t with
  | nil => rfl
  | cons e es ih =>
    have he := h e (List.mem_cons_self _ _)
    have ih' := ih (fun d hd => h d (List.mem_cons_of_mem _ hd))
    unfold sessionsRun at ih' ⊢
    cases e <;> simp [Event.onConnection] at he <;> simpa using ih'

/-- The identity stage does not touch the connection. -/
theorem identitySigners_off_connection (w : World) (iden : String) :
    ∀ e ∈ (identitySigners w iden).2, e.onConnection = false := by
  unfold identitySigners
  by_cases h : (iden != "") = true
  · simp only [h, if_true]
    generalize (if ((match w.lookupEnv "CONTAINER_PASSPHRASE" with
      | some v => v
      | none => "") == "") = true then "_empty_pass_" else
        (match w.lookupEnv "CONTAINER_PASSPHRASE" with
        | some v => v
        | none => "")) = pp
    cases w.publicKey iden pp <;> simp [Event.onConnection]
  · simp [h]

/-- The agent stage does not touch the connection. -/
theorem agentSigners_off_connection (w : World) :
    ∀ e ∈ (agentSigners w).2, e.onConnection = false := by
  unfold agentSigners
  split
  · simp
  · split
    · simp [Event.onConnection]
    · split <;> simp [Event.onConnection]

/-- The function `validateAndConfigure` does not touch the connection. -/
theorem validate_off_connection (w : World) (uri : URL) (iden : String) :
    ∀ e ∈ (validateAndConfigure w uri iden).2, e.onConnection = false := by
  have hi := identitySigners_off_connection w iden
  have ha := agentSigners_off_connection w
  unfold validateAndConfigure
  rcases h1 : identitySigners w iden with ⟨r1, t1⟩
  rcases h2 : agentSigners w with ⟨r2, t2⟩
  rw [h1] at hi
  rw [h2] at ha
  cases r1 with
  | error e => exact hi
  | ok fromFile =>
    cases r2 with
    | error e =>
      intro e he
      rcases List.mem_append.mp he with h | h
      · exact hi e h
      · exact ha e h
    | ok fromAgent =>
      intro e he
      simp only [parseDuration40s] at he
      rcases List.mem_append.mp he with h | h
      · exact hi e h
      · exact ha e h

/-- The shapes of the connection part of a trace of `getUDS`. -/
theorem getUDS_trace_shape (w : World) (uri : URL) (iden : String) :
    ∃ t t', (getUDS w uri iden).2 = t ++ t' ∧ (∀ e ∈ t, e.onConnection = false) ∧
      (t' = [] ∨ t' = [Event.connected, Event.closeConn] ∨
        t' = [Event.connected, Event.newSession 0, Event.closeSession 0, Event.closeConn] ∨
        ∃ tail, (∀ e ∈ tail, e.onConnection = false) ∧
          t' = [Event.connected, Event.newSession 0, Event.newSession 1,
            Event.run 1 (infoCommand w), Event.closeSession 1] ++ tail ++
            [Event.closeSession 0, Event.closeConn]) := by
  have hv := validate_off_connection w uri iden
  unfold getUDS
  rcases h1 : validateAndConfigure w uri iden with ⟨r1, t⟩
  rw [h1] at hv
  cases r1 with
  | error e => exact ⟨t, [], by simp, hv, Or.inl rfl⟩
  | ok cfg =>
    simp only
    cases hd : w.sshDial uri.host cfg with
    | some e =>
      refine ⟨t ++ [Event.sshDial uri.host cfg], [], by simp, ?_, Or.inl rfl⟩
      intro e he
      rcases List.mem_append.mp he with h | h
      · exact hv e h
      · simp at h; subst h; rfl
    | none =>
      have hpre : ∀ e ∈ t ++ [Event.sshDial uri.host cfg], e.onConnection = false := by
        intro e he
        rcases List.mem_append.mp he with h | h
        · exact hv e h
        · simp at h; subst h; rfl
      cases hs0 : w.newSession 0 with
      | some e =>
        exact ⟨t ++ [Event.sshDial uri.host cfg], _, by simp, hpre, Or.inr (Or.inl rfl)⟩
      | none =>
        simp only [discoverSocket, execRemoteCommand]
        cases hs1 : w.newSession 1 with
        | some e =>
          exact ⟨t ++ [Event.sshDial uri.host cfg], _, by simp, hpre, Or.inr (Or.inr (Or.inl rfl))⟩
        | none =>
          simp only
          cases hr : (w.run (infoCommand w)).err with
          | some e =>
            refine ⟨t ++ [Event.sshDial uri.host cfg], _, by simp, hpre,
              Or.inr (Or.inr (Or.inr ⟨[], by simp, rfl⟩))⟩
          | none =>
            simp only
            cases hj : w.unmarshal (w.run (infoCommand w)).stdout with
            | error e =>
              refine ⟨t ++ [Event.sshDial uri.host cfg], _, by simp, hpre,
                Or.inr (Or.inr (Or.inr ⟨[Event.unmarshal (w.run (infoCommand w)).stdout],
                  by simp [Event.onConnection], rfl⟩))⟩
            | ok info =>
              simp only
              cases hh : info.host with
              | none =>
                refine ⟨t ++ [Event.sshDial uri.host cfg], _, by simp, hpre,
                  Or.inr (Or.inr (Or.inr ⟨[Event.unmarshal (w.run (infoCommand w)).stdout],
                    by simp [Event.onConnection], rfl⟩))⟩
              | some host =>
                simp only
                cases hrs : host.remoteSocket with
                | none =>
                  refine ⟨t ++ [Event.sshDial uri.host cfg], _, by simp, hpre,
                    Or.inr (Or.inr (Or.inr ⟨[Event.unmarshal (w.run (infoCommand w)).stdout],
                      by simp [Event.onConnection], rfl⟩))⟩
                | some rs =>
                  simp only
                  by_cases hl : (rs.path.length == 0) = true
                  · simp only [hl, if_true]
                    refine ⟨t ++ [Event.sshDial uri.host cfg], _, by simp, hpre,
                      Or.inr (Or.inr (Or.inr ⟨[Event.unmarshal (w.run (infoCommand w)).stdout],
                        by simp [Event.onConnection], rfl⟩))⟩
                  · simp only [hl]
                    refine ⟨t ++ [Event.sshDial uri.host cfg], _, by simp, hpre,
                      Or.inr (Or.inr (Or.inr ⟨[Event.unmarshal (w.run (infoCommand w)).stdout],
                        by simp [Event.onConnection], rfl⟩))⟩

/-- Claim C10: every trace of `getUDS` uses only open resources and leaves no
session and no connection open; a trace in which a command is run opened
exactly the sessions 0 and 1, in that order, and ran the command on session 1
only; and when opening the first session fails with `e`, `getUDS` returns the
empty string and the error `e failed to create new ssh session on <host>`
(`<host>` the `%q` rendering of `uri.Host`) without opening a session or
running a command. -/
theorem session_accounting (w : World) (uri : URL) (iden : String) :
    releasesAll (getUDS w uri iden).2 = true ∧
    (sessionsRun (getUDS w uri iden).2 ≠ [] →
      sessionsOpened (getUDS w uri iden).2 = [0, 1] ∧ sessionsRun (getUDS w uri iden).2 = [1]) ∧
    (∀ cfg t e, validateAndConfigure w uri iden = (.ok cfg, t) → w.sshDial uri.host cfg = none →
      w.newSession 0 = some e →
      (getUDS w uri iden).1 =
          Outcome.returned ("", some (e ++ " failed to create new ssh session on " ++ goQuote w uri.host)) ∧
        mentions (e ++ " failed to create new ssh session on " ++ goQuote w uri.host)
          (goQuote w uri.host) ∧
        (plainText uri.host →
          mentions (e ++ " failed to create new ssh session on " ++ goQuote w uri.host) uri.host) ∧
        sessionsOpened (getUDS w uri iden).2 = [] ∧ sessionsRun (getUDS w uri iden).2 = []) := by
  obtain ⟨t, t', htr, hloc, hshape⟩ := getUDS_trace_shape w uri iden
  refine ⟨?_, ?_, ?_⟩
  · unfold releasesAll
    rw [htr, after_off_connection _ _ _ hloc]
    rcases hshape with h | h | h | ⟨tail, htail, h⟩
    · subst h; rfl
    · subst h; rfl
    · subst h; rfl
    · subst h
      have : Resources.after ⟨true, [0]⟩ (tail ++ [Event.closeSession 0, Event.closeConn]) =
          some ⟨false, []⟩ := by
        rw [after_off_connection _ _ _ htail]; rfl
      simp only [List.cons_append, List.nil_append, List.append_assoc, Resources.after,
        Resources.step]
      simpa [Resources.after, Resources.step, List.erase] using this
  · rw [htr, sessionsRun_off_connection _ _ hloc, sessionsOpened_off_connection _ _ hloc]
    rcases hshape with h | h | h | ⟨tail, htail, h⟩
    · subst h; intro hne; exact absurd rfl hne
    · subst h; intro hne; exact absurd rfl hne
    · subst h; intro hne; exact absurd rfl hne
    · subst h
      intro _
      have h1 := sessionsOpened_off_connection tail [Event.closeSession 0, Event.closeConn] htail
      have h2 := sessionsRun_off_connection tail [Event.closeSession 0, Event.closeConn] htail
      simp only [sessionsOpened, sessionsRun] at h1 h2 ⊢
      simp only [List.cons_append, List.nil_append, List.append_assoc, List.filterMap_cons]
      rw [h1, h2]
      exact ⟨rfl, rfl⟩
  · intro cfg t0 e hcfg hdial hs0
    have hq : mentions (e ++ " failed to create new ssh session on " ++ goQuote w uri.host)
        (goQuote w uri.host) := mentions_append_right _ _
    have hv := validate_off_connection w uri iden
    rw [hcfg] at hv
    have htrace : (getUDS w uri iden).2 =
        (t0 ++ [Event.sshDial uri.host cfg]) ++ [Event.connected, Event.closeConn] := by
      simp [getUDS, hcfg, hdial, hs0]
    have hpre : ∀ e ∈ t0 ++ [Event.sshDial uri.host cfg], e.onConnection = false := by
      intro e he
      rcases List.mem_append.mp he with h | h
      · exact hv e h
      · simp at h; subst h; rfl
    refine ⟨by simp [getUDS, hcfg, hdial, hs0], hq,
      fun hplain => mentions_trans hq (goQuote_mentions_plain w _ hplain), ?_, ?_⟩
    · rw [htrace, sessionsOpened_off_connection _ _ hpre]; rfl
    · rw [htrace, sessionsRun_off_connection _ _ hpre]; rfl

/-- A remote command failing with stderr `permission denied`. -/
theorem remote_failure_keeps_stderr_witness :
    (execRemoteCommand deniedWorld 1 "podman info --format=json").1 =
        .error "Process exited with status 125 permission denied" ∧
      mentions "Process exited with status 125 permission denied"
        "Process exited with status 125" ∧
      mentions "Process exited with status 125 permission denied" "permission denied" ∧
      (getUDS deniedWorld demoURL "").1 =
        Outcome.returned ("", some "Process exited with status 125 permission denied") :=
  have h := remote_failure_keeps_stderr deniedWorld demoURL "" _ _ 1 "podman info --format=json"
    "Process exited with status 125" rfl rfl
  ⟨h.1, h.2.1, h.2.2.1, h.2.2.2 rfl rfl rfl rfl rfl⟩

/-- The key `keyA` from the identity file and again from the agent, with `keyB`:
two signers remain. -/
theorem dedup_one_signer_per_fingerprint_witness :
    ∃ fromFile fromAgent,
      (identitySigners agentWorld "/home/core/.ssh/id_ed25519").1 = .ok fromFile ∧
      (agentSigners agentWorld).1 = .ok fromAgent ∧
      [keyA2, keyB] = uniqSigners agentWorld (fromFile ++ fromAgent) ∧
      ([keyA2, keyB].map Signer.fingerprint).Nodup ∧
      (∀ s ∈ fromFile ++ fromAgent, s.fingerprint ∈ [keyA2, keyB].map Signer.fingerprint) ∧
      (∀ s ∈ [keyA2, keyB], s ∈ fromFile ++ fromAgent) ∧
      [keyA2, keyB].length = (((fromFile ++ fromAgent).map Signer.fingerprint).dedup).length :=
  dedup_one_signer_per_fingerprint agentWorld demoURL "/home/core/.ssh/id_ed25519"
    ⟨"core", [AuthMethod.publicKeysCallback [keyA2, keyB], AuthMethod.password "pw"],
      HostKeyPolicy.insecureIgnoreHostKey, 40000000000⟩ _ [keyA2, keyB] rfl (by decide)

/-- One identity signer and the password `pw` give two methods in that order. -/
theorem auth_methods_sequence_witness :
    ∃ fromFile fromAgent,
      (identitySigners goodWorld "/home/core/.ssh/id_ed25519").1 = .ok fromFile ∧
      (agentSigners goodWorld).1 = .ok fromAgent ∧
      [AuthMethod.publicKeysCallback [keyA], AuthMethod.password "pw"] =
        (if fromFile ++ fromAgent ≠ [] then
          [AuthMethod.publicKeysCallback (uniqSigners goodWorld (fromFile ++ fromAgent))]
          else []) ++
        (if demoURL.password.2 = true then [AuthMethod.password demoURL.password.1] else []) ∧
      (fromFile ++ fromAgent = [] → demoURL.password.2 = false →
        [AuthMethod.publicKeysCallback [keyA], AuthMethod.password "pw"] = []) ∧
      (∀ s, fromFile ++ fromAgent = [s] → demoURL.password.2 = true →
        [AuthMethod.publicKeysCallback [keyA], AuthMethod.password "pw"] =
          [AuthMethod.publicKeysCallback [s], AuthMethod.password demoURL.password.1]) :=
  auth_methods_sequence goodWorld demoURL "/home/core/.ssh/id_ed25519"
    ⟨"core", [AuthMethod.publicKeysCallback [keyA], AuthMethod.password "pw"],
      HostKeyPolicy.insecureIgnoreHostKey, 40000000000⟩ _ rfl

/-- A handshake failing with `ssh: handshake failed: EOF`. -/
theorem connect_failure_wraps_cause_witness :
    (getUDS refusedWorld demoURL "").1 =
        Outcome.returned ("", some "ssh: handshake failed: EOF failed to connect") ∧
      mentions "ssh: handshake failed: EOF failed to connect" "ssh: handshake failed: EOF" :=
  connect_failure_wraps_cause refusedWorld demoURL "" _ _ "ssh: handshake failed: EOF" rfl rfl

/-- An unreachable advertised agent, and a world without `SSH_AUTH_SOCK`. -/
theorem agent_failure_is_fatal_witness :
    ((agentSigners deadAgentWorld).1 =
        .error "dial unix /tmp/agent.sock: connect: no such file or directory" ∧
      ∃ msg, (validateAndConfigure deadAgentWorld demoURL "/home/core/.ssh/id_ed25519").1 =
          .error msg ∧
        (∀ fromFile, (identitySigners deadAgentWorld "/home/core/.ssh/id_ed25519").1 =
          .ok fromFile → msg = "dial unix /tmp/agent.sock: connect: no such file or directory")) ∧
    (agentSigners goodWorld = (.ok [], []) ∧
      ∀ fromFile t1, identitySigners goodWorld "" = (.ok fromFile, t1) →
        ∃ cfg, validateAndConfigure goodWorld demoURL "" = (.ok cfg, t1) ∧
          cfg.auth = authMethods goodWorld demoURL fromFile) :=
  ⟨(agent_failure_is_fatal deadAgentWorld demoURL "/home/core/.ssh/id_ed25519").1
      "/tmp/agent.sock" "dial unix /tmp/agent.sock: connect: no such file or directory"
      rfl (Or.inl rfl),
   (agent_failure_is_fatal goodWorld demoURL "").2 rfl⟩

/-- A full resolution, and a resolution whose first session is refused. -/
theorem session_accounting_witness :
    (sessionsOpened (getUDS goodWorld demoURL "").2 = [0, 1] ∧
      sessionsRun (getUDS goodWorld demoURL "").2 = [1]) ∧
    ((getUDS noSessionWorld demoURL "").1 =
        Outcome.returned ("", some
          "ssh: rejected: administratively prohibited failed to create new ssh session on \"example.com:22\"") ∧
      sessionsOpened (getUDS noSessionWorld demoURL "").2 = [] ∧
      sessionsRun (getUDS noSessionWorld demoURL "").2 = []) :=
  have h := (session_accounting noSessionWorld demoURL "").2.2 _ _
    "ssh: rejected: administratively prohibited" rfl rfl rfl
  ⟨(session_accounting goodWorld demoURL "").2.1 (by decide), h.1, h.2.2.2.1, h.2.2.2.2⟩

end PodmanTui
